import Mathlib

/-!
# webmailwindow.c : device list, finder, LED command and command line

A shallow embedding of `src/webmailwindow.c`.

* C strings are lists of characters (the terminating NUL is the end of the list).
* The program state is a `World`: the global `PhysicalDeviceList`, the sequence of
  calls made on the HID transport so far, and what was printed on the two streams.
* What the outside decides (the result of the enumeration, of each `malloc` of a list
  node, of the write-capable open and of the write) is an `Env`.
* `hid.h` and `list.h` are not part of the source file: their operations are modelled
  from the specification, each one marked as such.
-/

namespace WebMailWindow

/-! ## C strings and the two libc functions the parser uses -/

/-- A C string: its characters up to, and without, the terminating NUL. -/
abbrev CString := List Char

/-- The libc `strncmp`: compares at most `n` characters; the end of a string reads as
NUL.  The result is zero, or the difference of the first two characters that differ. -/
def strncmp : CString → CString → Nat → Int
  | _, _, 0 => 0
  | [], [], _ + 1 => 0
  | [], b :: _, _ + 1 => 0 - (b.toNat : Int)
  | a :: _, [], _ + 1 => (a.toNat : Int)
  | a :: s, b :: t, n + 1 =>
    if a = b then strncmp s t n else (a.toNat : Int) - (b.toNat : Int)

/-- The libc `strstr`: the suffix of the haystack that starts at the first occurrence
of the needle, or `none` (NULL) when the needle does not occur. -/
def strstr : CString → CString → Option CString
  | [], needle => if needle = [] then some [] else none
  | c :: s, needle =>
    if needle.isPrefixOf (c :: s) then some (c :: s) else strstr s needle

/-! ## Data types -/

/-- The macro `WEBMAILWINDOW_VENDERID`. -/
def WEBMAILWINDOW_VENDERID : Nat := 0x1294

/-- The macro `WEBMAILWINDOW_PRODUCTID`. -/
def WEBMAILWINDOW_PRODUCTID : Nat := 0x1320

/-- Modelled from the spec: the `HID_DEVICE` descriptor of `hid.h`, reduced to what the
program reads or writes: the device path, the transport handle, the two identity
attributes and the value field of the output report. -/
structure HID_DEVICE where
  DevicePath : CString
  HidDevice : Nat
  VendorID : Nat
  ProductID : Nat
  OutputValue : Nat
  deriving DecidableEq

/-- The `DEVICE_LIST_NODE` structure; the list header is the position in the list. -/
structure DEVICE_LIST_NODE where
  HidDeviceInfo : HID_DEVICE
  DeviceOpened : Bool
  deriving DecidableEq

/-- Modelled from the spec: the `LIST` of `list.h`, an ordered sequence of nodes in
insertion order. -/
abbrev LIST := List DEVICE_LIST_NODE

/-- One call made on the HID transport. -/
inductive TransportCall where
  | enumerate : TransportCall
  | opened : CString → Nat → TransportCall
  | openFailed : CString → TransportCall
  | close : Nat → TransportCall
  | write : Nat → Nat → TransportCall
  deriving DecidableEq

/-- The program state. -/
structure World where
  PhysicalDeviceList : LIST
  calls : List TransportCall
  stdout : List String
  stderr : List String
  deriving DecidableEq

/-- The state in which the process starts. -/
def World.init : World := ⟨[], [], [], []⟩

/-- What the outside decides during one run. -/
structure Env where
  -- the opened descriptors `FindKnownHidDevices` yields, `none` when it fails
  enumeration : Option (List HID_DEVICE)
  -- whether the `malloc` of the list node for device `i` succeeds
  mallocOk : Nat → Bool
  -- the handle `OpenHidDevice` obtains for a path, `none` when the open fails
  openHandle : CString → Option Nat
  -- whether the transport accepts the output report
  writeOk : Bool

/-! ## The transport (`hid.h`) and the list (`list.h`) -/

/-- Modelled from the spec: `FindKnownHidDevices` of `hid.h`, the live enumeration.  On
success it yields the array of descriptors, each with a handle opened during the
enumeration. -/
def FindKnownHidDevices (env : Env) (w : World) : Option (List HID_DEVICE) × World :=
  match env.enumeration with
  | none => (none, { w with calls := w.calls ++ [TransportCall.enumerate] })
  | some devs =>
    (some devs,
      { w with calls := w.calls ++ TransportCall.enumerate ::
          devs.map (fun d => TransportCall.opened d.DevicePath d.HidDevice) })

/-- Modelled from the spec: `OpenHidDevice` of `hid.h`, `open(path, request_read,
request_write, request_shared, request_overlapped) -> handle | failure`. -/
def OpenHidDevice (env : Env) (DevicePath : CString)
    (_HasReadAccess _HasWriteAccess _IsOverlapped _IsExclusive : Bool) (w : World) :
    Option HID_DEVICE × World :=
  match env.openHandle DevicePath with
  | some h =>
    (some ⟨DevicePath, h, 0, 0, 0⟩,
      { w with calls := w.calls ++ [TransportCall.opened DevicePath h] })
  | none => (none, { w with calls := w.calls ++ [TransportCall.openFailed DevicePath] })

/-- Modelled from the spec: `CloseHidDevice` of `hid.h`, `close(handle)`. -/
def CloseHidDevice (d : HID_DEVICE) (w : World) : World :=
  { w with calls := w.calls ++ [TransportCall.close d.HidDevice] }

/-- Modelled from the spec: `CloseHidDevices` of `hid.h`, which closes each of the
descriptors of an array directly. -/
def CloseHidDevices (HidDevices : List HID_DEVICE) (w : World) : World :=
  HidDevices.foldl (fun w d => CloseHidDevice d w) w

/-- Modelled from the spec: `Write` of `hid.h`, the synchronous write of the output
report held by the descriptor; the result tells whether the transport accepted it. -/
def Write (env : Env) (d : HID_DEVICE) (w : World) : Bool × World :=
  (env.writeOk, { w with calls := w.calls ++ [TransportCall.write d.HidDevice d.OutputValue] })

/-- Modelled from the spec: `InitializeList` of `list.h`. -/
def InitializeList (w : World) : World :=
  { w with PhysicalDeviceList := [] }

/-- Modelled from the spec: `InsertTail` of `list.h`, insertion at the tail. -/
def InsertTail (w : World) (node : DEVICE_LIST_NODE) : World :=
  { w with PhysicalDeviceList := w.PhysicalDeviceList ++ [node] }

/-- Modelled from the spec: `IsListEmpty` of `list.h`. -/
def IsListEmpty (l : LIST) : Bool :=
  l.isEmpty

/-- Modelled from the spec: `DestroyListWithCallback` of `list.h`: the per-record
cleanup is invoked for every record present, head first, and the list is empty
afterwards. -/
def DestroyListWithCallback (w : World) (callback : DEVICE_LIST_NODE → World → World) :
    World :=
  { w.PhysicalDeviceList.foldl (fun w node => callback node w) w with
    PhysicalDeviceList := [] }

/-! ## The functions of `webmailwindow.c` -/

/-- The function `DestroyDeviceListCallback`: closes the device of the node (and frees the node). -/
def DestroyDeviceListCallback (ListNode : DEVICE_LIST_NODE) (w : World) : World :=
  CloseHidDevice ListNode.HidDeviceInfo w

/-- The `for` loop of `UpdatePhysicalDeviceList`.  `pDevice` is the part of the
enumerated array from the current device on, so that its length is
`numberDevices - iIndex`. -/
def updateLoop (env : Env) : List HID_DEVICE → Nat → World → World
  | [], _, w => w
  | d :: rest, iIndex, w =>
    if env.mallocOk iIndex then
      updateLoop env rest (iIndex + 1) (InsertTail w ⟨d, true⟩)
    else
      let w := DestroyListWithCallback w DestroyDeviceListCallback
      let w := CloseHidDevices (d :: rest) w
      { w with stderr := w.stderr ++ ["Faild to allocate memory for DEVICE_LIST_NODE\n"] }

/-- The function `UpdatePhysicalDeviceList`. -/
def UpdatePhysicalDeviceList (env : Env) (w : World) : World :=
  let w := InitializeList w
  match FindKnownHidDevices env w with
  | (none, w) => { w with stderr := w.stderr ++ ["Faild to find hid devices\n"] }
  | (some tempDeviceList, w) => updateLoop env tempDeviceList 0 w

/-- The `for (;;)` loop of `FindWebMailWindowNode`.  A node pointer is the position of
the node in the list; `rest` holds the nodes after `currNode`, so that
`currNode == lastNode` exactly when `rest` is empty. -/
def findLoop : Nat → DEVICE_LIST_NODE → List DEVICE_LIST_NODE → Option (Nat × DEVICE_LIST_NODE)
  | pos, currNode, rest =>
    if currNode.HidDeviceInfo.VendorID = WEBMAILWINDOW_VENDERID ∧
        currNode.HidDeviceInfo.ProductID = WEBMAILWINDOW_PRODUCTID then
      some (pos, currNode)
    else
      match rest with
      | [] => none
      | next :: rest => findLoop (pos + 1) next rest

/-- The function `FindWebMailWindowNode`: the position and the contents of the node found, `none`
for NULL. -/
def FindWebMailWindowNode (PhysicalDeviceList : LIST) : Option (Nat × DEVICE_LIST_NODE) :=
  if ¬ IsListEmpty PhysicalDeviceList then
    match PhysicalDeviceList with
    | [] => none
    | head :: rest => findLoop 0 head rest
  else
    none

/-- The function `SetLedPattern`. -/
def SetLedPattern (env : Env) (device : HID_DEVICE) (pattern_value : Nat) (w : World) :
    Bool × World :=
  match OpenHidDevice env device.DevicePath false true false false w with
  | (some writeDevice, w) =>
    let writeDevice := { writeDevice with OutputValue := pattern_value }
    let w := (Write env writeDevice w).2
    let w := CloseHidDevice writeDevice w
    (true, w)
  | (none, w) =>
    (false, { w with stderr := w.stderr ++ ["Cannot open Webmail Window HID Device\n"] })

/-- One iteration of the loop of `ParseOptionsForLedPattern`, at index `i`. -/
def parseIteration (argc : Nat) (argv : List CString) (led_pattern : Int) (i : Nat) : Int :=
  if strncmp "-c".toList (argv.getD i []) 2 = 0 ∧ i + 1 < argc then
    let pattern := argv.getD (i + 1) []
    let mask : Nat := 0
    let mask := if (strstr pattern "r".toList).isSome then mask ||| 0x2 else mask
    let mask := if (strstr pattern "g".toList).isSome then mask ||| 0x1 else mask
    let mask := if (strstr pattern "b".toList).isSome then mask ||| 0x4 else mask
    if mask > 0 then (mask : Int)
    else if strncmp "none".toList pattern 4 = 0 then 0
    else led_pattern
  else led_pattern

/-- The function `ParseOptionsForLedPattern`: `i` runs from `0` to `argc - 1`.  (`argc` is a 32-bit
`ULONG` and `i < argc`, so `i + 1` does not wrap.) -/
def ParseOptionsForLedPattern (argc : Nat) (argv : List CString) : Int :=
  (List.range argc).foldl (parseIteration argc argv) (-1)

/-- The usage line. -/
def usageLine : String := "usage: webmailwindow.exe -c [r|g|b|rg|rb|gb|rgb|none]\n"

/-- The function `main`: the exit status and the final state.  The `int` `led_pattern` is passed to
the `ULONG` parameter of `SetLedPattern`. -/
def main (env : Env) (argc : Nat) (argv : List CString) (w : World) : Int × World :=
  let retval : Int := 0
  let led_pattern := ParseOptionsForLedPattern argc argv
  if led_pattern = -1 then
    (0, { w with stdout := w.stdout ++ [usageLine] })
  else
    let w := UpdatePhysicalDeviceList env w
    let (retval, w) :=
      match FindWebMailWindowNode w.PhysicalDeviceList with
      | some (_, node) =>
        match SetLedPattern env node.HidDeviceInfo (led_pattern % 2 ^ 32).toNat w with
        | (true, w) => (retval, w)
        | (false, w) => ((1 : Int), w)
      | none =>
        ((1 : Int),
          { w with stderr := w.stderr ++ ["Cannot find Webmail Window HID Device\n"] })
    let w :=
      if ¬ IsListEmpty w.PhysicalDeviceList then
        DestroyListWithCallback w DestroyDeviceListCallback
      else w
    (retval, w)

/-! ## Observations on the sequence of transport calls -/

/-- The handles closed, in order. -/
def closedHandles : List TransportCall → List Nat
  | [] => []
  | TransportCall.close h :: cs => h :: closedHandles cs
  | _ :: cs => closedHandles cs

/-- The handles obtained by successful opens, in order. -/
def openedHandles : List TransportCall → List Nat
  | [] => []
  | TransportCall.opened _ h :: cs => h :: openedHandles cs
  | _ :: cs => openedHandles cs

/-- The output-report writes, in order: handle and value. -/
def writesIssued : List TransportCall → List (Nat × Nat)
  | [] => []
  | TransportCall.write h v :: cs => (h, v) :: writesIssued cs
  | _ :: cs => writesIssued cs

/-- The OR of the bits of the letters among `r`, `g`, `b` present in a token: the closed
form of the mask the loop body computes, used in the proofs. -/
def letterMask (p : CString) : Nat :=
  (if 'r' ∈ p then 2 else 0) ||| (if 'g' ∈ p then 1 else 0) ||| (if 'b' ∈ p then 4 else 0)

/-! ## Concrete runs used below -/

/-- A descriptor of the target device, opened with handle 1. -/
def targetDevice : HID_DEVICE := ⟨"hid#target".toList, 1, 0x1294, 0x1320, 0⟩

/-- A descriptor with the vendor id of the target and another product id. -/
def keyboardDevice : HID_DEVICE := ⟨"hid#keyboard".toList, 2, 0x1294, 0x0001, 0⟩

/-- A descriptor with another identity. -/
def mouseDevice : HID_DEVICE := ⟨"hid#mouse".toList, 3, 0x046D, 0xC077, 0⟩

/-- One target device; the write-capable open yields handle 9 and the write is
accepted. -/
def envOneTarget : Env := ⟨some [targetDevice], fun _ => true, fun _ => some 9, true⟩

/-- One target device; the write-capable open yields handle 9 and the transport rejects
the write. -/
def envWriteFails : Env := ⟨some [targetDevice], fun _ => true, fun _ => some 9, false⟩

/-- Three devices enumerated; the allocation of the node for device 1 fails. -/
def envAllocFails : Env :=
  ⟨some [keyboardDevice, targetDevice, mouseDevice], fun i => i != 1, fun _ => some 9, true⟩

/-- Three devices enumerated, the target in the middle; everything succeeds. -/
def envThreeDevices : Env :=
  ⟨some [keyboardDevice, targetDevice, mouseDevice], fun _ => true, fun _ => some 9, true⟩

/-- No device enumerated. -/
def envNoDevice : Env := ⟨some [], fun _ => true, fun _ => some 9, true⟩

/-! # Theorems -/

/-! ## The two libc functions -/

theorem strstr_single_isSome (c : Char) (p : CString) :
    (strstr p [c]).isSome = true ↔ c ∈ p := by
  induction p with
  | nil => simp [strstr]
  | cons a s ih =>
    unfold strstr
    by_cases h : a = c
    · subst h
      simp [List.isPrefixOf]
    · have h2 : ¬ c = a := fun e => h e.symm
      simp [List.isPrefixOf, h, h2, ih]

theorem strncmp_eq_zero_iff (pre : CString) (hpre : ∀ c ∈ pre, c.toNat ≠ 0) (s : CString) :
    strncmp pre s pre.length = 0 ↔ pre <+: s := by
  induction pre generalizing s with
  | nil => simp [strncmp]
  | cons a pre ih =>
    have ha : a.toNat ≠ 0 := hpre a (List.mem_cons_self _ _)
    have hrest : ∀ c ∈ pre, c.toNat ≠ 0 := fun c hc => hpre c (List.mem_cons_of_mem _ hc)
    cases s with
    | nil =>
      simp only [List.length_cons, strncmp]
      simp
      exact_mod_cast ha
    | cons b t =>
      simp only [List.length_cons, strncmp]
      by_cases hab : a = b
      · subst hab
        simp [ih hrest t, List.cons_prefix_cons]
      · have : (a.toNat : Int) - (b.toNat : Int) ≠ 0 := by
          intro h
          apply hab
          have h2 : a.toNat = b.toNat := by omega
          exact Char.ext (UInt32.ext h2)
        simp [hab, this, List.cons_prefix_cons]

/-! ## The parser -/

theorem dash_c_nonzero : ∀ c ∈ "-c".toList, c.toNat ≠ 0 := by decide

theorem none_nonzero : ∀ c ∈ "none".toList, c.toNat ≠ 0 := by decide

theorem strncmp_dash_c (s : CString) :
    strncmp "-c".toList s 2 = 0 ↔ "-c".toList <+: s :=
  strncmp_eq_zero_iff "-c".toList dash_c_nonzero s

theorem strncmp_none (s : CString) :
    strncmp "none".toList s 4 = 0 ↔ "none".toList <+: s :=
  strncmp_eq_zero_iff "none".toList none_nonzero s

theorem letterMask_pos_iff (p : CString) :
    0 < letterMask p ↔ ('r' ∈ p ∨ 'g' ∈ p ∨ 'b' ∈ p) := by
  unfold letterMask
  by_cases hr : 'r' ∈ p <;> by_cases hg : 'g' ∈ p <;> by_cases hb : 'b' ∈ p <;>
    simp [hr, hg, hb]

theorem parseIteration_eq (argc : Nat) (argv : List CString) (led : Int) (i : Nat) :
    parseIteration argc argv led i =
      if "-c".toList <+: argv.getD i [] ∧ i + 1 < argc then
        if 0 < letterMask (argv.getD (i + 1) []) then (letterMask (argv.getD (i + 1) []) : Int)
        else if "none".toList <+: argv.getD (i + 1) [] then 0
        else led
      else led := by
  unfold parseIteration
  simp only [strncmp_dash_c, strncmp_none]
  by_cases hc : "-c".toList <+: argv.getD i [] ∧ i + 1 < argc
  · rw [if_pos hc, if_pos hc]
    have hr := strstr_single_isSome 'r' (argv.getD (i + 1) [])
    have hg := strstr_single_isSome 'g' (argv.getD (i + 1) [])
    have hb := strstr_single_isSome 'b' (argv.getD (i + 1) [])
    unfold letterMask
    by_cases h1 : 'r' ∈ argv.getD (i + 1) [] <;>
      by_cases h2 : 'g' ∈ argv.getD (i + 1) [] <;>
      by_cases h3 : 'b' ∈ argv.getD (i + 1) [] <;>
      simp [h1, h2, h3, hr.mpr, hg.mpr, hb.mpr, show "r".toList = ['r'] from rfl,
        show "g".toList = ['g'] from rfl, show "b".toList = ['b'] from rfl] <;>
      simp_all
  · rw [if_neg hc, if_neg hc]

theorem parseIteration_recognised (argc : Nat) (argv : List CString) (led : Int) (i : Nat)
    (hflag : "-c".toList <+: argv.getD i []) (hi : i + 1 < argc)
    (hrec : 'r' ∈ argv.getD (i + 1) [] ∨ 'g' ∈ argv.getD (i + 1) [] ∨
      'b' ∈ argv.getD (i + 1) [] ∨ "none".toList <+: argv.getD (i + 1) []) :
    parseIteration argc argv led i = (letterMask (argv.getD (i + 1) []) : Int) := by
  rw [parseIteration_eq, if_pos ⟨hflag, hi⟩]
  by_cases hm : 0 < letterMask (argv.getD (i + 1) [])
  · rw [if_pos hm]
  · rw [if_neg hm]
    have hnone : "none".toList <+: argv.getD (i + 1) [] := by
      rcases hrec with h | h | h | h
      · exact absurd ((letterMask_pos_iff _).mpr (Or.inl h)) hm
      · exact absurd ((letterMask_pos_iff _).mpr (Or.inr (Or.inl h))) hm
      · exact absurd ((letterMask_pos_iff _).mpr (Or.inr (Or.inr h))) hm
      · exact h
    rw [if_pos hnone]
    have : letterMask (argv.getD (i + 1) []) = 0 := by omega
    rw [this]
    rfl

theorem parseIteration_skip (argc : Nat) (argv : List CString) (led : Int) (i : Nat)
    (h : ¬ ("-c".toList <+: argv.getD i [] ∧ i + 1 < argc ∧
      ('r' ∈ argv.getD (i + 1) [] ∨ 'g' ∈ argv.getD (i + 1) [] ∨
        'b' ∈ argv.getD (i + 1) [] ∨ "none".toList <+: argv.getD (i + 1) []))) :
    parseIteration argc argv led i = led := by
  rw [parseIteration_eq]
  by_cases hc : "-c".toList <+: argv.getD i [] ∧ i + 1 < argc
  · rw [if_pos hc]
    have hnot : ¬ ('r' ∈ argv.getD (i + 1) [] ∨ 'g' ∈ argv.getD (i + 1) [] ∨
        'b' ∈ argv.getD (i + 1) [] ∨ "none".toList <+: argv.getD (i + 1) []) :=
      fun hr => h ⟨hc.1, hc.2, hr⟩
    have hm : ¬ 0 < letterMask (argv.getD (i + 1) []) := by
      rw [letterMask_pos_iff]
      intro hl
      apply hnot
      rcases hl with hl | hl | hl
      · exact Or.inl hl
      · exact Or.inr (Or.inl hl)
      · exact Or.inr (Or.inr (Or.inl hl))
    have hn : ¬ "none".toList <+: argv.getD (i + 1) [] :=
      fun hn => hnot (Or.inr (Or.inr (Or.inr hn)))
    rw [if_neg hm, if_neg hn]
  · rw [if_neg hc]

/-- The loop from a recognised occurrence on: the value of the last recognised
occurrence below the bound is what the loop holds. -/
theorem parse_fold_last (argc : Nat) (argv : List CString) (init : Int) (i : Nat)
    (hflag : "-c".toList <+: argv.getD i []) (hi : i + 1 < argc)
    (hrec : 'r' ∈ argv.getD (i + 1) [] ∨ 'g' ∈ argv.getD (i + 1) [] ∨
      'b' ∈ argv.getD (i + 1) [] ∨ "none".toList <+: argv.getD (i + 1) []) :
    ∀ n, i < n →
      (∀ j, i < j → j < n → ¬ ("-c".toList <+: argv.getD j [] ∧ j + 1 < argc ∧
        ('r' ∈ argv.getD (j + 1) [] ∨ 'g' ∈ argv.getD (j + 1) [] ∨
          'b' ∈ argv.getD (j + 1) [] ∨ "none".toList <+: argv.getD (j + 1) []))) →
      (List.range n).foldl (parseIteration argc argv) init =
        (letterMask (argv.getD (i + 1) []) : Int) := by
  intro n
  induction n with
  | zero => intro h; omega
  | succ n ih =>
    intro hin hlast
    rw [List.range_succ, List.foldl_append]
    simp only [List.foldl_cons, List.foldl_nil]
    by_cases hn : i = n
    · subst hn
      exact parseIteration_recognised argc argv _ i hflag hi hrec
    · have hlt : i < n := by omega
      rw [parseIteration_skip argc argv _ n (hlast n hlt (Nat.lt_succ_self n))]
      exact ih hlt (fun j h1 h2 => hlast j h1 (Nat.lt_succ_of_lt h2))

/-- The loop over a range without recognised occurrence leaves the value as it was. -/
theorem parse_fold_none (argc : Nat) (argv : List CString) (init : Int) :
    ∀ n, (∀ j, j < n → ¬ ("-c".toList <+: argv.getD j [] ∧ j + 1 < argc ∧
        ('r' ∈ argv.getD (j + 1) [] ∨ 'g' ∈ argv.getD (j + 1) [] ∨
          'b' ∈ argv.getD (j + 1) [] ∨ "none".toList <+: argv.getD (j + 1) []))) →
      (List.range n).foldl (parseIteration argc argv) init = init := by
  intro n
  induction n with
  | zero => intro _; rfl
  | succ n ih =>
    intro hnone
    rw [List.range_succ, List.foldl_append]
    simp only [List.foldl_cons, List.foldl_nil]
    rw [parseIteration_skip argc argv _ n (hnone n (Nat.lt_succ_self n))]
    exact ih (fun j h => hnone j (Nat.lt_succ_of_lt h))

/-- The parse of `prog flag pattern` with a recognised pattern. -/
theorem parse_single (prog flag p : CString) (hflag : "-c".toList <+: flag)
    (hrec : 'r' ∈ p ∨ 'g' ∈ p ∨ 'b' ∈ p ∨ "none".toList <+: p) :
    ParseOptionsForLedPattern 3 [prog, flag, p] = (letterMask p : Int) := by
  unfold ParseOptionsForLedPattern
  have h := parse_fold_last 3 [prog, flag, p] (-1) 1 hflag (by decide) hrec 3 (by decide)
    (by
      intro j h1 h2 h3
      omega)
  exact h

/-- The parse of `prog -c pattern` with an unrecognised pattern. -/
theorem parse_single_unrecognised (prog p : CString)
    (hrec : ¬ ('r' ∈ p ∨ 'g' ∈ p ∨ 'b' ∈ p ∨ "none".toList <+: p)) :
    ParseOptionsForLedPattern 3 [prog, "-c".toList, p] = -1 := by
  unfold ParseOptionsForLedPattern
  apply parse_fold_none
  intro j hj h
  have hj3 : j = 0 ∨ j = 1 := by omega
  rcases hj3 with rfl | rfl
  · have h3 := h.2.2
    simp only [List.getD_cons_succ, List.getD_cons_zero] at h3
    revert h3
    decide
  · exact hrec h.2.2

/-! ## The finder -/

theorem findLoop_some_iff (rest : List DEVICE_LIST_NODE) :
    ∀ (pos : Nat) (curr : DEVICE_LIST_NODE) (k : Nat) (node : DEVICE_LIST_NODE),
      findLoop pos curr rest = some (k, node) ↔
        ∃ d, k = pos + d ∧ (curr :: rest)[d]? = some node ∧
          (node.HidDeviceInfo.VendorID = 0x1294 ∧ node.HidDeviceInfo.ProductID = 0x1320) ∧
          ∀ j, j < d → ∀ n, (curr :: rest)[j]? = some n →
            ¬ (n.HidDeviceInfo.VendorID = 0x1294 ∧ n.HidDeviceInfo.ProductID = 0x1320) := by
  induction rest with
  | nil =>
    intro pos curr k node
    unfold findLoop
    by_cases ht : curr.HidDeviceInfo.VendorID = WEBMAILWINDOW_VENDERID ∧
        curr.HidDeviceInfo.ProductID = WEBMAILWINDOW_PRODUCTID
    · rw [if_pos ht]
      constructor
      · intro h
        simp only [Option.some.injEq, Prod.mk.injEq] at h
        obtain ⟨rfl, rfl⟩ := h
        exact ⟨0, rfl, rfl, ht, fun j hj => absurd hj (Nat.not_lt_zero j)⟩
      · rintro ⟨d, hk, hd, _, hmin⟩
        cases d with
        | zero =>
          simp only [List.getElem?_cons_zero, Option.some.injEq] at hd
          subst hd
          subst hk
          rfl
        | succ d => simp at hd
    · rw [if_neg ht]
      constructor
      · intro h
        exact absurd h (by simp)
      · rintro ⟨d, _, hd, hT, _⟩
        cases d with
        | zero =>
          simp only [List.getElem?_cons_zero, Option.some.injEq] at hd
          subst hd
          exact absurd hT ht
        | succ d => simp at hd
  | cons next rest ih =>
    intro pos curr k node
    unfold findLoop
    by_cases ht : curr.HidDeviceInfo.VendorID = WEBMAILWINDOW_VENDERID ∧
        curr.HidDeviceInfo.ProductID = WEBMAILWINDOW_PRODUCTID
    · rw [if_pos ht]
      constructor
      · intro h
        simp only [Option.some.injEq, Prod.mk.injEq] at h
        obtain ⟨rfl, rfl⟩ := h
        exact ⟨0, rfl, rfl, ht, fun j hj => absurd hj (Nat.not_lt_zero j)⟩
      · rintro ⟨d, hk, hd, _, hmin⟩
        cases d with
        | zero =>
          simp only [List.getElem?_cons_zero, Option.some.injEq] at hd
          subst hd
          subst hk
          rfl
        | succ d => exact absurd ht (hmin 0 (Nat.succ_pos d) curr rfl)
    · rw [if_neg ht]
      simp only
      rw [ih (pos + 1) next k node]
      constructor
      · rintro ⟨d, hk, hd, hT, hmin⟩
        refine ⟨d + 1, by omega, by simpa using hd, hT, ?_⟩
        intro j hj n hn
        cases j with
        | zero =>
          simp only [List.getElem?_cons_zero, Option.some.injEq] at hn
          subst hn
          exact ht
        | succ j =>
          exact hmin j (by omega) n (by simpa using hn)
      · rintro ⟨d, hk, hd, hT, hmin⟩
        cases d with
        | zero =>
          simp only [List.getElem?_cons_zero, Option.some.injEq] at hd
          subst hd
          exact absurd hT ht
        | succ d =>
          refine ⟨d, by omega, by simpa using hd, hT, ?_⟩
          intro j hj n hn
          exact hmin (j + 1) (by omega) n (by simpa using hn)

theorem find_some_iff (l : LIST) (k : Nat) (node : DEVICE_LIST_NODE) :
    FindWebMailWindowNode l = some (k, node) ↔
      l[k]? = some node ∧
        (node.HidDeviceInfo.VendorID = 0x1294 ∧ node.HidDeviceInfo.ProductID = 0x1320) ∧
        ∀ j, j < k → ∀ n, l[j]? = some n →
          ¬ (n.HidDeviceInfo.VendorID = 0x1294 ∧ n.HidDeviceInfo.ProductID = 0x1320) := by
  cases l with
  | nil => simp [FindWebMailWindowNode, IsListEmpty]
  | cons head rest =>
    simp only [FindWebMailWindowNode, IsListEmpty, List.isEmpty_cons, Bool.false_eq_true,
      not_false_eq_true, if_true]
    rw [findLoop_some_iff]
    constructor
    · rintro ⟨d, hk, h⟩
      have : k = d := by omega
      subst this
      exact h
    · intro h
      exact ⟨k, by omega, h⟩

theorem find_none_iff (l : LIST) :
    FindWebMailWindowNode l = none ↔
      ∀ n ∈ l, ¬ (n.HidDeviceInfo.VendorID = 0x1294 ∧ n.HidDeviceInfo.ProductID = 0x1320) := by
  constructor
  · intro hnone n hn
    intro hT
    -- the least position holding a target would be found
    obtain ⟨i, hi, hget⟩ := List.getElem_of_mem hn
    have hex : ∃ j, ∃ m : DEVICE_LIST_NODE, l[j]? = some m ∧
        (m.HidDeviceInfo.VendorID = 0x1294 ∧ m.HidDeviceInfo.ProductID = 0x1320) :=
      ⟨i, n, by rw [List.getElem?_eq_getElem hi, hget], hT⟩
    classical
    let k := Nat.find hex
    obtain ⟨m, hm, hmT⟩ := Nat.find_spec hex
    have hmin : ∀ j, j < k → ∀ n, l[j]? = some n →
        ¬ (n.HidDeviceInfo.VendorID = 0x1294 ∧ n.HidDeviceInfo.ProductID = 0x1320) :=
      fun j hj n hn hnT => Nat.find_min hex hj ⟨n, hn, hnT⟩
    have := (find_some_iff l k m).mpr ⟨hm, hmT, hmin⟩
    rw [hnone] at this
    exact absurd this (by simp)
  · intro hall
    cases hf : FindWebMailWindowNode l with
    | none => rfl
    | some r =>
      obtain ⟨k, node⟩ := r
      obtain ⟨hget, hT, _⟩ := (find_some_iff l k node).mp hf
      exact absurd hT (hall node (List.getElem?_mem hget))

/-- C1: for every list content, `FindWebMailWindowNode` returns the node at position `k`
exactly when that node has vendor id 0x1294 and product id 0x1320 and no node before it
has both (so the first such node in insertion order is returned, a node matching on one
field only is never returned, and of two target nodes the one inserted first is
returned), and it returns NULL exactly when no node has both fields equal to the
target. -/
theorem FindWebMailWindowNode_returns_first_match (l : LIST) :
    (∀ (k : Nat) (node : DEVICE_LIST_NODE),
      FindWebMailWindowNode l = some (k, node) ↔
        l[k]? = some node ∧
          (node.HidDeviceInfo.VendorID = 0x1294 ∧ node.HidDeviceInfo.ProductID = 0x1320) ∧
          ∀ j, j < k → ∀ n, l[j]? = some n →
            ¬ (n.HidDeviceInfo.VendorID = 0x1294 ∧ n.HidDeviceInfo.ProductID = 0x1320)) ∧
      (FindWebMailWindowNode l = none ↔
        ∀ n ∈ l,
          ¬ (n.HidDeviceInfo.VendorID = 0x1294 ∧ n.HidDeviceInfo.ProductID = 0x1320)) :=
  ⟨find_some_iff l, find_none_iff l⟩

/-! ## Observations distribute over the sequence of calls -/

@[simp] theorem closedHandles_append (a b : List TransportCall) :
    closedHandles (a ++ b) = closedHandles a ++ closedHandles b := by
  induction a with
  | nil => rfl
  | cons c a ih => cases c <;> simp [closedHandles, ih]

@[simp] theorem openedHandles_append (a b : List TransportCall) :
    openedHandles (a ++ b) = openedHandles a ++ openedHandles b := by
  induction a with
  | nil => rfl
  | cons c a ih => cases c <;> simp [openedHandles, ih]

@[simp] theorem writesIssued_append (a b : List TransportCall) :
    writesIssued (a ++ b) = writesIssued a ++ writesIssued b := by
  induction a with
  | nil => rfl
  | cons c a ih => cases c <;> simp [writesIssued, ih]

@[simp] theorem closedHandles_map_close {α : Type} (f : α → Nat) (l : List α) :
    closedHandles (l.map (fun x => TransportCall.close (f x))) = l.map f := by
  induction l with
  | nil => rfl
  | cons x l ih => simp [closedHandles, ih]

@[simp] theorem openedHandles_map_close {α : Type} (f : α → Nat) (l : List α) :
    openedHandles (l.map (fun x => TransportCall.close (f x))) = [] := by
  induction l with
  | nil => rfl
  | cons x l ih => simp [openedHandles, ih]

@[simp] theorem writesIssued_map_close {α : Type} (f : α → Nat) (l : List α) :
    writesIssued (l.map (fun x => TransportCall.close (f x))) = [] := by
  induction l with
  | nil => rfl
  | cons x l ih => simp [writesIssued, ih]

@[simp] theorem closedHandles_map_opened {α : Type} (p : α → CString) (f : α → Nat)
    (l : List α) :
    closedHandles (l.map (fun x => TransportCall.opened (p x) (f x))) = [] := by
  induction l with
  | nil => rfl
  | cons x l ih => simp [closedHandles, ih]

@[simp] theorem openedHandles_map_opened {α : Type} (p : α → CString) (f : α → Nat)
    (l : List α) :
    openedHandles (l.map (fun x => TransportCall.opened (p x) (f x))) = l.map f := by
  induction l with
  | nil => rfl
  | cons x l ih => simp [openedHandles, ih]

@[simp] theorem writesIssued_map_opened {α : Type} (p : α → CString) (f : α → Nat)
    (l : List α) :
    writesIssued (l.map (fun x => TransportCall.opened (p x) (f x))) = [] := by
  induction l with
  | nil => rfl
  | cons x l ih => simp [writesIssued, ih]

/-! ## Closed forms of the list and transport operations -/

theorem CloseHidDevices_eq (ds : List HID_DEVICE) (w : World) :
    CloseHidDevices ds w =
      { w with calls := w.calls ++ ds.map (fun d => TransportCall.close d.HidDevice) } := by
  unfold CloseHidDevices
  induction ds generalizing w with
  | nil => simp
  | cons d ds ih =>
    rw [List.foldl_cons, ih]
    simp [CloseHidDevice]

theorem destroy_fold (l : LIST) (w : World) :
    l.foldl (fun w node => DestroyDeviceListCallback node w) w =
      { w with calls := w.calls ++
          l.map (fun n => TransportCall.close n.HidDeviceInfo.HidDevice) } := by
  induction l generalizing w with
  | nil => simp
  | cons n l ih =>
    rw [List.foldl_cons, ih]
    simp [DestroyDeviceListCallback, CloseHidDevice]

theorem DestroyListWithCallback_eq (w : World) :
    DestroyListWithCallback w DestroyDeviceListCallback =
      { w with
        PhysicalDeviceList := []
        calls := w.calls ++
          w.PhysicalDeviceList.map (fun n => TransportCall.close n.HidDeviceInfo.HidDevice) } := by
  unfold DestroyListWithCallback
  rw [destroy_fold]

/-- The teardown at the end of `main`. -/
theorem teardown_eq (w : World) :
    (if ¬ IsListEmpty w.PhysicalDeviceList then
        DestroyListWithCallback w DestroyDeviceListCallback
      else w) =
      { w with
        PhysicalDeviceList := []
        calls := w.calls ++
          w.PhysicalDeviceList.map (fun n => TransportCall.close n.HidDeviceInfo.HidDevice) } := by
  cases h : w.PhysicalDeviceList with
  | nil =>
    obtain ⟨l, c, o, e⟩ := w
    simp only at h
    subst h
    simp [IsListEmpty]
  | cons n l =>
    rw [DestroyListWithCallback_eq, h]
    simp [IsListEmpty]

/-- The loop when every allocation succeeds. -/
theorem updateLoop_ok (env : Env) (ds : List HID_DEVICE) :
    ∀ (i : Nat) (w : World), (∀ j, j < ds.length → env.mallocOk (i + j) = true) →
      updateLoop env ds i w =
        { w with PhysicalDeviceList :=
            w.PhysicalDeviceList ++ ds.map (fun d => (⟨d, true⟩ : DEVICE_LIST_NODE)) } := by
  induction ds with
  | nil => intro i w _; simp [updateLoop]
  | cons d ds ih =>
    intro i w h
    have h0 : env.mallocOk i = true := by simpa using h 0 (by simp)
    unfold updateLoop
    rw [if_pos h0, ih (i + 1) _ (fun j hj => by
      have := h (j + 1) (by simpa using hj)
      rwa [show i + 1 + j = i + (j + 1) by omega])]
    simp [InsertTail]

/-- The loop when the first allocation to fail is that of device `k`: the `k` nodes
appended so far are destroyed through the callback and the remaining descriptors are
closed directly. -/
theorem updateLoop_fail_at (env : Env) (k : Nat) :
    ∀ (ds : List HID_DEVICE) (i : Nat) (w : World), k < ds.length →
      (∀ j, j < k → env.mallocOk (i + j) = true) → env.mallocOk (i + k) = false →
      updateLoop env ds i w =
        { CloseHidDevices (ds.drop k)
            (DestroyListWithCallback
              { w with PhysicalDeviceList := w.PhysicalDeviceList ++
                  (ds.take k).map (fun d => (⟨d, true⟩ : DEVICE_LIST_NODE)) }
              DestroyDeviceListCallback) with
          stderr := w.stderr ++ ["Faild to allocate memory for DEVICE_LIST_NODE\n"] } := by
  induction k with
  | zero =>
    intro ds i w hk _ hfail
    cases ds with
    | nil => simp at hk
    | cons d ds =>
      have hf : env.mallocOk i = false := by simpa using hfail
      unfold updateLoop
      simp [hf, CloseHidDevices_eq, DestroyListWithCallback_eq]
  | succ k ih =>
    intro ds i w hk hok hfail
    cases ds with
    | nil => simp at hk
    | cons d ds =>
      have h0 : env.mallocOk i = true := by simpa using hok 0 (Nat.succ_pos k)
      unfold updateLoop
      rw [if_pos h0, ih ds (i + 1) _ (by simpa using hk)
        (fun j hj => by
          have := hok (j + 1) (by omega)
          rwa [show i + 1 + j = i + (j + 1) by omega])
        (by rwa [show i + 1 + k = i + (k + 1) by omega])]
      simp [InsertTail, CloseHidDevices_eq, DestroyListWithCallback_eq]

/-- The loop when some allocation fails: everything enumerated is closed and the list
ends empty. -/
theorem updateLoop_fail (env : Env) (ds : List HID_DEVICE) (i : Nat) (w : World)
    (h : ∃ j, j < ds.length ∧ env.mallocOk (i + j) = false) :
    updateLoop env ds i w =
      { w with
        PhysicalDeviceList := []
        calls := w.calls ++
          w.PhysicalDeviceList.map (fun n => TransportCall.close n.HidDeviceInfo.HidDevice) ++
          ds.map (fun d => TransportCall.close d.HidDevice)
        stderr := w.stderr ++ ["Faild to allocate memory for DEVICE_LIST_NODE\n"] } := by
  classical
  have hk := Nat.find_spec h
  have hmin : ∀ j, j < Nat.find h → env.mallocOk (i + j) = true := by
    intro j hj
    have hn := Nat.find_min h hj
    by_contra hc
    exact hn ⟨Nat.lt_trans hj hk.1, by simpa using hc⟩
  rw [updateLoop_fail_at env (Nat.find h) ds i w hk.1 hmin hk.2]
  simp only [CloseHidDevices_eq, DestroyListWithCallback_eq, List.map_append, List.map_map,
    List.append_assoc]
  congr 2
  have : ds.map (fun d => TransportCall.close d.HidDevice) =
      (ds.take (Nat.find h)).map (fun d => TransportCall.close d.HidDevice) ++
        (ds.drop (Nat.find h)).map (fun d => TransportCall.close d.HidDevice) := by
    rw [← List.map_append, List.take_append_drop]
  rw [this]
  rfl

/-! ## Closed forms of `UpdatePhysicalDeviceList`, `SetLedPattern` and `main` -/

theorem update_enumeration_failed (env : Env) (w : World) (h : env.enumeration = none) :
    UpdatePhysicalDeviceList env w =
      { w with
        PhysicalDeviceList := []
        calls := w.calls ++ [TransportCall.enumerate]
        stderr := w.stderr ++ ["Faild to find hid devices\n"] } := by
  simp [UpdatePhysicalDeviceList, FindKnownHidDevices, InitializeList, h]

theorem update_ok (env : Env) (w : World) (devs : List HID_DEVICE)
    (h : env.enumeration = some devs) (hok : ∀ j, j < devs.length → env.mallocOk j = true) :
    UpdatePhysicalDeviceList env w =
      { w with
        PhysicalDeviceList := devs.map (fun d => (⟨d, true⟩ : DEVICE_LIST_NODE))
        calls := w.calls ++ TransportCall.enumerate ::
          devs.map (fun d => TransportCall.opened d.DevicePath d.HidDevice) } := by
  simp only [UpdatePhysicalDeviceList, FindKnownHidDevices, InitializeList, h]
  rw [updateLoop_ok env devs 0 _ (fun j hj => by simpa using hok j hj)]
  simp

theorem update_alloc_failed (env : Env) (w : World) (devs : List HID_DEVICE)
    (h : env.enumeration = some devs)
    (hfail : ∃ j, j < devs.length ∧ env.mallocOk j = false) :
    UpdatePhysicalDeviceList env w =
      { w with
        PhysicalDeviceList := []
        calls := w.calls ++ TransportCall.enumerate ::
          devs.map (fun d => TransportCall.opened d.DevicePath d.HidDevice) ++
          devs.map (fun d => TransportCall.close d.HidDevice)
        stderr := w.stderr ++ ["Faild to allocate memory for DEVICE_LIST_NODE\n"] } := by
  simp only [UpdatePhysicalDeviceList, FindKnownHidDevices, InitializeList, h]
  rw [updateLoop_fail env devs 0 _ (by
    obtain ⟨j, hj, hf⟩ := hfail
    exact ⟨j, hj, by simpa using hf⟩)]
  simp

/-- The three shapes of the state after `UpdatePhysicalDeviceList`. -/
theorem update_cases (env : Env) (w : World) :
    (env.enumeration = none ∧
      UpdatePhysicalDeviceList env w =
        { w with
          PhysicalDeviceList := []
          calls := w.calls ++ [TransportCall.enumerate]
          stderr := w.stderr ++ ["Faild to find hid devices\n"] }) ∨
    (∃ devs, env.enumeration = some devs ∧ (∀ j, j < devs.length → env.mallocOk j = true) ∧
      UpdatePhysicalDeviceList env w =
        { w with
          PhysicalDeviceList := devs.map (fun d => (⟨d, true⟩ : DEVICE_LIST_NODE))
          calls := w.calls ++ TransportCall.enumerate ::
            devs.map (fun d => TransportCall.opened d.DevicePath d.HidDevice) }) ∨
    (∃ devs, env.enumeration = some devs ∧ (∃ j, j < devs.length ∧ env.mallocOk j = false) ∧
      UpdatePhysicalDeviceList env w =
        { w with
          PhysicalDeviceList := []
          calls := w.calls ++ TransportCall.enumerate ::
            devs.map (fun d => TransportCall.opened d.DevicePath d.HidDevice) ++
            devs.map (fun d => TransportCall.close d.HidDevice)
          stderr := w.stderr ++ ["Faild to allocate memory for DEVICE_LIST_NODE\n"] }) := by
  cases h : env.enumeration with
  | none => exact Or.inl ⟨rfl, update_enumeration_failed env w h⟩
  | some devs =>
    by_cases hok : ∀ j, j < devs.length → env.mallocOk j = true
    · exact Or.inr (Or.inl ⟨devs, rfl, hok, update_ok env w devs h hok⟩)
    · have hfail : ∃ j, j < devs.length ∧ env.mallocOk j = false := by
        by_contra hc
        apply hok
        intro j hj
        by_contra hj2
        exact hc ⟨j, hj, by simpa using hj2⟩
      exact Or.inr (Or.inr ⟨devs, rfl, hfail, update_alloc_failed env w devs h hfail⟩)

/-- In every state `UpdatePhysicalDeviceList` leaves, the handles opened and not yet
closed are those of the nodes in the list, and nothing has been written. -/
theorem update_balance (env : Env) :
    let w1 := UpdatePhysicalDeviceList env World.init
    openedHandles w1.calls =
        closedHandles w1.calls ++ w1.PhysicalDeviceList.map (fun n => n.HidDeviceInfo.HidDevice) ∧
      openedHandles w1.calls = (env.enumeration.getD []).map (fun d => d.HidDevice) ∧
      writesIssued w1.calls = [] := by
  intro w1
  rcases update_cases env World.init with ⟨he, h⟩ | ⟨devs, he, _, h⟩ | ⟨devs, he, _, h⟩
  · simp [w1, h, he, World.init, openedHandles, closedHandles, writesIssued]
  · simp [w1, h, he, World.init, openedHandles, closedHandles, writesIssued, List.map_map,
      Function.comp_def]
  · simp [w1, h, he, World.init, openedHandles, closedHandles, writesIssued]

theorem teardown_fields (l : LIST) (c : List TransportCall) (o e : List String) :
    (if ¬ IsListEmpty l then
        DestroyListWithCallback (World.mk l c o e) DestroyDeviceListCallback
      else World.mk l c o e) =
      World.mk [] (c ++ l.map (fun n => TransportCall.close n.HidDeviceInfo.HidDevice)) o e :=
  teardown_eq (World.mk l c o e)

theorem SetLedPattern_opened (env : Env) (device : HID_DEVICE) (v : Nat) (w : World) (h : Nat)
    (hopen : env.openHandle device.DevicePath = some h) :
    SetLedPattern env device v w =
      (true, { w with calls := w.calls ++
        [TransportCall.opened device.DevicePath h, TransportCall.write h v,
          TransportCall.close h] }) := by
  simp [SetLedPattern, OpenHidDevice, hopen, Write, CloseHidDevice]

theorem SetLedPattern_open_failed (env : Env) (device : HID_DEVICE) (v : Nat) (w : World)
    (hopen : env.openHandle device.DevicePath = none) :
    SetLedPattern env device v w =
      (false, { w with
        calls := w.calls ++ [TransportCall.openFailed device.DevicePath]
        stderr := w.stderr ++ ["Cannot open Webmail Window HID Device\n"] }) := by
  simp [SetLedPattern, OpenHidDevice, hopen]

/-- A run of `main` with a valid mask in which no target is in the list. -/
theorem main_not_found (env : Env) (argc : Nat) (argv : List CString) (w : World)
    (hmask : ParseOptionsForLedPattern argc argv ≠ -1)
    (hfind : FindWebMailWindowNode (UpdatePhysicalDeviceList env w).PhysicalDeviceList = none) :
    main env argc argv w =
      (1, { UpdatePhysicalDeviceList env w with
        PhysicalDeviceList := []
        calls := (UpdatePhysicalDeviceList env w).calls ++
          (UpdatePhysicalDeviceList env w).PhysicalDeviceList.map
            (fun n => TransportCall.close n.HidDeviceInfo.HidDevice)
        stderr := (UpdatePhysicalDeviceList env w).stderr ++
          ["Cannot find Webmail Window HID Device\n"] }) := by
  unfold main
  simp only [if_neg hmask, hfind]
  rw [teardown_fields]

/-- A run of `main` with a valid mask in which the target is found and the
write-capable open succeeds. -/
theorem main_written (env : Env) (argc : Nat) (argv : List CString) (w : World)
    (k : Nat) (node : DEVICE_LIST_NODE) (h : Nat)
    (hmask : ParseOptionsForLedPattern argc argv ≠ -1)
    (hfind : FindWebMailWindowNode (UpdatePhysicalDeviceList env w).PhysicalDeviceList =
      some (k, node))
    (hopen : env.openHandle node.HidDeviceInfo.DevicePath = some h) :
    main env argc argv w =
      (0, { UpdatePhysicalDeviceList env w with
        PhysicalDeviceList := []
        calls := (UpdatePhysicalDeviceList env w).calls ++
          [TransportCall.opened node.HidDeviceInfo.DevicePath h,
            TransportCall.write h (ParseOptionsForLedPattern argc argv % 2 ^ 32).toNat,
            TransportCall.close h] ++
          (UpdatePhysicalDeviceList env w).PhysicalDeviceList.map
            (fun n => TransportCall.close n.HidDeviceInfo.HidDevice) }) := by
  unfold main
  simp only [if_neg hmask, hfind, SetLedPattern_opened env _ _ _ h hopen]
  rw [teardown_fields]

/-- A run of `main` with a valid mask in which the target is found and the
write-capable open fails. -/
theorem main_open_failed (env : Env) (argc : Nat) (argv : List CString) (w : World)
    (k : Nat) (node : DEVICE_LIST_NODE)
    (hmask : ParseOptionsForLedPattern argc argv ≠ -1)
    (hfind : FindWebMailWindowNode (UpdatePhysicalDeviceList env w).PhysicalDeviceList =
      some (k, node))
    (hopen : env.openHandle node.HidDeviceInfo.DevicePath = none) :
    main env argc argv w =
      (1, { UpdatePhysicalDeviceList env w with
        PhysicalDeviceList := []
        calls := (UpdatePhysicalDeviceList env w).calls ++
          [TransportCall.openFailed node.HidDeviceInfo.DevicePath] ++
          (UpdatePhysicalDeviceList env w).PhysicalDeviceList.map
            (fun n => TransportCall.close n.HidDeviceInfo.HidDevice)
        stderr := (UpdatePhysicalDeviceList env w).stderr ++
          ["Cannot open Webmail Window HID Device\n"] }) := by
  unfold main
  simp only [if_neg hmask, hfind, SetLedPattern_open_failed env _ _ _ hopen]
  rw [teardown_fields]

theorem letterMask_le (p : CString) : letterMask p ≤ 7 := by
  unfold letterMask
  by_cases h1 : 'r' ∈ p <;> by_cases h2 : 'g' ∈ p <;> by_cases h3 : 'b' ∈ p <;>
    simp [h1, h2, h3]

/-- The parse result is -1 or a mask between 0 and 7. -/
theorem parse_range (argc : Nat) (argv : List CString) :
    ParseOptionsForLedPattern argc argv = -1 ∨
      (0 ≤ ParseOptionsForLedPattern argc argv ∧ ParseOptionsForLedPattern argc argv ≤ 7) := by
  unfold ParseOptionsForLedPattern
  have hstep : ∀ (led : Int) (i : Nat), (led = -1 ∨ (0 ≤ led ∧ led ≤ 7)) →
      (parseIteration argc argv led i = -1 ∨
        (0 ≤ parseIteration argc argv led i ∧ parseIteration argc argv led i ≤ 7)) := by
    intro led i hled
    rw [parseIteration_eq]
    have hm : letterMask (argv.getD (i + 1) []) ≤ 7 := letterMask_le _
    split_ifs
    · right; omega
    · right; omega
    · exact hled
    · exact hled
  have : ∀ (n : Nat) (init : Int), (init = -1 ∨ (0 ≤ init ∧ init ≤ 7)) →
      ((List.range n).foldl (parseIteration argc argv) init = -1 ∨
        (0 ≤ (List.range n).foldl (parseIteration argc argv) init ∧
          (List.range n).foldl (parseIteration argc argv) init ≤ 7)) := by
    intro n
    induction n with
    | zero => intro init h; simpa using h
    | succ n ih =>
      intro init h
      rw [List.range_succ, List.foldl_append]
      simp only [List.foldl_cons, List.foldl_nil]
      exact hstep _ n (ih init h)
  exact this argc (-1) (Or.inl rfl)

/-- The conversion of a valid mask to the `ULONG` parameter keeps its value. -/
theorem mask_to_ulong (argc : Nat) (argv : List CString)
    (hmask : ParseOptionsForLedPattern argc argv ≠ -1) :
    (ParseOptionsForLedPattern argc argv % 2 ^ 32).toNat =
        (ParseOptionsForLedPattern argc argv).toNat ∧
      (((ParseOptionsForLedPattern argc argv).toNat : Nat) : Int) =
        ParseOptionsForLedPattern argc argv := by
  rcases parse_range argc argv with h | h
  · exact absurd h hmask
  · constructor
    · rw [Int.emod_eq_of_lt h.1 (by omega)]
    · omega

/-! ## Claims on the device list and the run -/

/-- C2: when the enumeration yields the N descriptors `devs` and the allocation of the
node for device `k < N` is the first to fail, `UpdatePhysicalDeviceList` destroys the
`k` nodes appended so far through `DestroyDeviceListCallback` and closes the `N - k`
descriptors not yet wrapped directly; it performs N close calls, one for each
enumerated handle in turn, and leaves the list empty. -/
theorem allocation_failure_closes_every_handle (env : Env) (w : World)
    (devs : List HID_DEVICE) (k : Nat)
    (henum : env.enumeration = some devs) (hk : k < devs.length)
    (hok : ∀ i, i < k → env.mallocOk i = true) (hfail : env.mallocOk k = false) :
    UpdatePhysicalDeviceList env w =
        { CloseHidDevices (devs.drop k)
            (DestroyListWithCallback
              { w with
                PhysicalDeviceList := (devs.take k).map (fun d => (⟨d, true⟩ : DEVICE_LIST_NODE))
                calls := w.calls ++ TransportCall.enumerate ::
                  devs.map (fun d => TransportCall.opened d.DevicePath d.HidDevice) }
              DestroyDeviceListCallback) with
          stderr := w.stderr ++ ["Faild to allocate memory for DEVICE_LIST_NODE\n"] } ∧
      (UpdatePhysicalDeviceList env w).calls =
        w.calls ++ TransportCall.enumerate ::
          devs.map (fun d => TransportCall.opened d.DevicePath d.HidDevice) ++
          ((devs.take k).map (fun d => TransportCall.close d.HidDevice) ++
            (devs.drop k).map (fun d => TransportCall.close d.HidDevice)) ∧
      ((devs.take k).length = k ∧ (devs.drop k).length = devs.length - k) ∧
      closedHandles (UpdatePhysicalDeviceList env w).calls =
        closedHandles w.calls ++ devs.map (fun d => d.HidDevice) ∧
      (closedHandles (UpdatePhysicalDeviceList env w).calls).length =
        (closedHandles w.calls).length + devs.length ∧
      ((devs.map (fun d => d.HidDevice)).Nodup → ∀ d ∈ devs,
        (closedHandles (UpdatePhysicalDeviceList env w).calls).count d.HidDevice =
          (closedHandles w.calls).count d.HidDevice + 1) ∧
      (UpdatePhysicalDeviceList env w).PhysicalDeviceList = [] := by
  have hstep : UpdatePhysicalDeviceList env w =
      { CloseHidDevices (devs.drop k)
          (DestroyListWithCallback
            { w with
              PhysicalDeviceList := (devs.take k).map (fun d => (⟨d, true⟩ : DEVICE_LIST_NODE))
              calls := w.calls ++ TransportCall.enumerate ::
                devs.map (fun d => TransportCall.opened d.DevicePath d.HidDevice) }
            DestroyDeviceListCallback) with
        stderr := w.stderr ++ ["Faild to allocate memory for DEVICE_LIST_NODE\n"] } := by
    simp only [UpdatePhysicalDeviceList, FindKnownHidDevices, InitializeList, henum]
    rw [updateLoop_fail_at env k devs 0 _ hk (fun j hj => by simpa using hok j hj)
      (by simpa using hfail)]
    simp
  have hcalls : (UpdatePhysicalDeviceList env w).calls =
      w.calls ++ TransportCall.enumerate ::
        devs.map (fun d => TransportCall.opened d.DevicePath d.HidDevice) ++
        ((devs.take k).map (fun d => TransportCall.close d.HidDevice) ++
          (devs.drop k).map (fun d => TransportCall.close d.HidDevice)) := by
    rw [hstep]
    simp [CloseHidDevices_eq, DestroyListWithCallback_eq, List.map_map, Function.comp_def]
  have hclosed : closedHandles (UpdatePhysicalDeviceList env w).calls =
      closedHandles w.calls ++ devs.map (fun d => d.HidDevice) := by
    rw [hcalls, ← List.map_append, List.take_append_drop]
    simp [closedHandles]
  refine ⟨hstep, hcalls, ⟨?_, ?_⟩, hclosed, ?_, ?_, ?_⟩
  · exact List.length_take_of_le (Nat.le_of_lt hk)
  · exact List.length_drop k devs
  · rw [hclosed]; simp
  · intro hnodup d hd
    rw [hclosed, List.count_append]
    congr 1
    exact List.count_eq_one_of_mem hnodup (List.mem_map_of_mem _ hd)
  · rw [hstep]
    simp [CloseHidDevices_eq, DestroyListWithCallback_eq]

/-- Witness of C2: three devices, the allocation for device 1 fails. -/
theorem allocation_failure_closes_every_handle_witness :
    closedHandles (UpdatePhysicalDeviceList envAllocFails World.init).calls = [2, 1, 3] ∧
      (UpdatePhysicalDeviceList envAllocFails World.init).PhysicalDeviceList = [] := by
  have h := allocation_failure_closes_every_handle envAllocFails World.init
    [keyboardDevice, targetDevice, mouseDevice] 1 rfl (by decide) (by decide) rfl
  exact ⟨h.2.2.2.1, h.2.2.2.2.2.2⟩

/-- C3: in every run with a valid mask, whatever is enumerated, wherever the target is
and whichever way the run goes, when `main` returns the handles closed are the handles
opened (those of the enumeration and, when the write-capable open succeeded, the second
handle), so the two counts agree, and the list is empty. -/
theorem no_handle_outlives_the_run (env : Env) (argv : List CString)
    (hmask : ParseOptionsForLedPattern argv.length argv ≠ -1) :
    (closedHandles (main env argv.length argv World.init).2.calls).length =
        (openedHandles (main env argv.length argv World.init).2.calls).length ∧
      (closedHandles (main env argv.length argv World.init).2.calls).Perm
        (openedHandles (main env argv.length argv World.init).2.calls) ∧
      openedHandles (main env argv.length argv World.init).2.calls =
        (env.enumeration.getD []).map (fun d => d.HidDevice) ++
          (match FindWebMailWindowNode
              (UpdatePhysicalDeviceList env World.init).PhysicalDeviceList with
            | some (_, node) => (env.openHandle node.HidDeviceInfo.DevicePath).toList
            | none => []) ∧
      (main env argv.length argv World.init).2.PhysicalDeviceList = [] := by
  have hbal := update_balance env
  simp only at hbal
  obtain ⟨hb1, hb2, _⟩ := hbal
  have key : (closedHandles (main env argv.length argv World.init).2.calls).Perm
        (openedHandles (main env argv.length argv World.init).2.calls) ∧
      openedHandles (main env argv.length argv World.init).2.calls =
        (env.enumeration.getD []).map (fun d => d.HidDevice) ++
          (match FindWebMailWindowNode
              (UpdatePhysicalDeviceList env World.init).PhysicalDeviceList with
            | some (_, node) => (env.openHandle node.HidDeviceInfo.DevicePath).toList
            | none => []) ∧
      (main env argv.length argv World.init).2.PhysicalDeviceList = [] := by
    cases hfind : FindWebMailWindowNode
        (UpdatePhysicalDeviceList env World.init).PhysicalDeviceList with
    | none =>
      rw [main_not_found env _ argv _ hmask hfind]
      refine ⟨?_, ?_, rfl⟩
      · simp only [closedHandles_append, openedHandles_append, closedHandles_map_close,
          openedHandles_map_close, List.append_nil]
        rw [hb1]
      · simp only [openedHandles_append, openedHandles_map_close, List.append_nil]
        exact hb2
    | some r =>
      obtain ⟨k, node⟩ := r
      cases hopen : env.openHandle node.HidDeviceInfo.DevicePath with
      | none =>
        rw [main_open_failed env _ argv _ k node hmask hfind hopen]
        refine ⟨?_, ?_, rfl⟩
        · simp only [closedHandles_append, openedHandles_append, closedHandles_map_close,
            openedHandles_map_close, List.append_nil, closedHandles, openedHandles]
          rw [hb1]
        · simp only [openedHandles_append, openedHandles_map_close, List.append_nil,
            openedHandles, hopen, Option.toList]
          exact hb2
      | some h =>
        rw [main_written env _ argv _ k node h hmask hfind hopen]
        refine ⟨?_, ?_, rfl⟩
        · simp only [closedHandles_append, openedHandles_append, closedHandles_map_close,
            openedHandles_map_close, List.append_nil, closedHandles, openedHandles]
          rw [hb1, List.append_assoc, List.append_assoc]
          exact List.Perm.append_left _ List.perm_append_comm
        · simp only [openedHandles_append, openedHandles_map_close, List.append_nil,
            openedHandles, hopen, Option.toList]
          rw [hb2]
  exact ⟨key.1.length_eq, key.1, key.2.1, key.2.2⟩

/-- Witness of C3: three devices, the target in the middle, `-c rb`. -/
theorem no_handle_outlives_the_run_witness :
    (closedHandles (main envThreeDevices 3
        ["webmailwindow.exe".toList, "-c".toList, "rb".toList] World.init).2.calls).length =
      (openedHandles (main envThreeDevices 3
        ["webmailwindow.exe".toList, "-c".toList, "rb".toList] World.init).2.calls).length :=
  (no_handle_outlives_the_run envThreeDevices
    ["webmailwindow.exe".toList, "-c".toList, "rb".toList] (by decide)).1

/-- C4, the code at the failing input: one target device, `-c r`, the write-capable open
succeeds and the transport rejects the write.  The second handle (9) is closed, but
`SetLedPattern` returns TRUE and `main` returns 0, not 1: the result of `Write` is
dropped. -/
theorem write_failure_is_not_reported :
    envWriteFails.writeOk = false ∧
      (Write envWriteFails ⟨"hid#target".toList, 9, 0, 0, 2⟩ World.init).1 = false ∧
      (SetLedPattern envWriteFails targetDevice 2
        (UpdatePhysicalDeviceList envWriteFails World.init)).1 = true ∧
      (main envWriteFails 3 ["webmailwindow.exe".toList, "-c".toList, "r".toList]
        World.init).1 = 0 ∧
      (main envWriteFails 3 ["webmailwindow.exe".toList, "-c".toList, "r".toList]
        World.init).2.calls =
        [TransportCall.enumerate, TransportCall.opened "hid#target".toList 1,
          TransportCall.opened "hid#target".toList 9, TransportCall.write 9 2,
          TransportCall.close 9, TransportCall.close 1] := by
  decide

/-- C5: in a run with a valid mask in which the target is found and the write-capable
open yields the handle `h`, exactly one output report is written, on `h`, and its value
is the mask parsed from the command line (0 for `-c none`); the LED command opens, writes
and closes `h` only and leaves the list as it is, so the handle the list holds for the
found node is neither closed nor written by it; and when the write is accepted `main`
returns 0. -/
theorem one_write_carries_the_parsed_mask (env : Env) (argv : List CString) (k : Nat)
    (node : DEVICE_LIST_NODE) (h : Nat)
    (hmask : ParseOptionsForLedPattern argv.length argv ≠ -1)
    (hfind : FindWebMailWindowNode (UpdatePhysicalDeviceList env World.init).PhysicalDeviceList =
      some (k, node))
    (hopen : env.openHandle node.HidDeviceInfo.DevicePath = some h) :
    writesIssued (main env argv.length argv World.init).2.calls =
        [(h, (ParseOptionsForLedPattern argv.length argv).toNat)] ∧
      (((ParseOptionsForLedPattern argv.length argv).toNat : Nat) : Int) =
        ParseOptionsForLedPattern argv.length argv ∧
      (∀ prog : CString, argv = [prog, "-c".toList, "none".toList] →
        writesIssued (main env argv.length argv World.init).2.calls = [(h, 0)]) ∧
      SetLedPattern env node.HidDeviceInfo
          (ParseOptionsForLedPattern argv.length argv % 2 ^ 32).toNat
          (UpdatePhysicalDeviceList env World.init) =
        (true, { UpdatePhysicalDeviceList env World.init with
          calls := (UpdatePhysicalDeviceList env World.init).calls ++
            [TransportCall.opened node.HidDeviceInfo.DevicePath h,
              TransportCall.write h (ParseOptionsForLedPattern argv.length argv).toNat,
              TransportCall.close h] }) ∧
      (h ≠ node.HidDeviceInfo.HidDevice →
        node.HidDeviceInfo.HidDevice ∉ closedHandles
            [TransportCall.opened node.HidDeviceInfo.DevicePath h,
              TransportCall.write h (ParseOptionsForLedPattern argv.length argv).toNat,
              TransportCall.close h] ∧
          ∀ v, (node.HidDeviceInfo.HidDevice, v) ∉ writesIssued
            [TransportCall.opened node.HidDeviceInfo.DevicePath h,
              TransportCall.write h (ParseOptionsForLedPattern argv.length argv).toNat,
              TransportCall.close h]) ∧
      (env.writeOk = true → (main env argv.length argv World.init).1 = 0) := by
  obtain ⟨hconv, hval⟩ := mask_to_ulong argv.length argv hmask
  obtain ⟨_, _, hnow⟩ := update_balance env
  have hwrites : writesIssued (main env argv.length argv World.init).2.calls =
      [(h, (ParseOptionsForLedPattern argv.length argv).toNat)] := by
    rw [main_written env _ argv _ k node h hmask hfind hopen, hconv]
    simp only [writesIssued_append, writesIssued_map_close, List.append_nil, writesIssued, hnow,
      List.nil_append]
  refine ⟨hwrites, hval, ?_, ?_, ?_, ?_⟩
  · intro prog hargv
    rw [hwrites]
    subst hargv
    have h0 : ParseOptionsForLedPattern 3 [prog, "-c".toList, "none".toList] = 0 := by
      rw [parse_single prog "-c".toList "none".toList (List.prefix_refl _) (by decide)]
      decide
    simp only [List.length_cons, List.length_nil]
    rw [h0]
    rfl
  · rw [SetLedPattern_opened env _ _ _ h hopen, hconv]
  · intro hne
    have hne2 : ¬ node.HidDeviceInfo.HidDevice = h := fun e => hne e.symm
    simp [closedHandles, writesIssued, hne2]
  · intro _
    rw [main_written env _ argv _ k node h hmask hfind hopen]

/-- Witness of C5: one device with the target identity and `-c none`: one write with
mask 0 on the second handle, exit status 0. -/
theorem one_write_carries_the_parsed_mask_witness :
    writesIssued (main envOneTarget 3
        ["webmailwindow.exe".toList, "-c".toList, "none".toList] World.init).2.calls =
        [(9, 0)] ∧
      (main envOneTarget 3
        ["webmailwindow.exe".toList, "-c".toList, "none".toList] World.init).1 = 0 := by
  have h := one_write_carries_the_parsed_mask envOneTarget
    ["webmailwindow.exe".toList, "-c".toList, "none".toList] 0 ⟨targetDevice, true⟩ 9
    (by decide) (by decide) (by decide)
  exact ⟨h.2.2.1 _ rfl, h.2.2.2.2.2 rfl⟩

/-- In each of the four ways the list can come to hold no target, it holds none. -/
theorem registry_without_target (env : Env) (w : World)
    (h : env.enumeration = none ∨ env.enumeration = some [] ∨
      (∃ devs k, env.enumeration = some devs ∧ k < devs.length ∧ env.mallocOk k = false) ∨
      (∃ devs, env.enumeration = some devs ∧
        ∀ d ∈ devs, ¬ (d.VendorID = 0x1294 ∧ d.ProductID = 0x1320))) :
    ∀ n ∈ (UpdatePhysicalDeviceList env w).PhysicalDeviceList,
      ¬ (n.HidDeviceInfo.VendorID = 0x1294 ∧ n.HidDeviceInfo.ProductID = 0x1320) := by
  intro n hn
  rcases update_cases env w with ⟨_, hu⟩ | ⟨devs, he, _, hu⟩ | ⟨devs, _, _, hu⟩
  · rw [hu] at hn
    simp at hn
  · rw [hu] at hn
    simp only [List.mem_map] at hn
    obtain ⟨d, hd, rfl⟩ := hn
    rcases h with h | h | ⟨devs2, k, he2, hk, hf⟩ | ⟨devs2, he2, hnone⟩
    · rw [h] at he
      exact absurd he (by simp)
    · rw [h] at he
      simp only [Option.some.injEq] at he
      subst he
      simp at hd
    · rw [he2] at he
      simp only [Option.some.injEq] at he
      subst he
      rename_i hok
      rw [hok k hk] at hf
      exact absurd hf (by simp)
    · rw [he2] at he
      simp only [Option.some.injEq] at he
      subst he
      exact hnone d hd
  · rw [hu] at hn
    simp at hn

/-- C6: in a run with a valid mask in which the list holds no node with the target
identity (enumeration failure, zero devices, an allocation failure, or only devices of
another identity), or in which the target is found and the write-capable open fails,
`main` issues no write of an output report, reports the error on standard error and
returns 1. -/
theorem no_target_or_open_failure_returns_one (env : Env) (argv : List CString)
    (hmask : ParseOptionsForLedPattern argv.length argv ≠ -1)
    (h : env.enumeration = none ∨ env.enumeration = some [] ∨
      (∃ devs k, env.enumeration = some devs ∧ k < devs.length ∧ env.mallocOk k = false) ∨
      (∃ devs, env.enumeration = some devs ∧
        ∀ d ∈ devs, ¬ (d.VendorID = 0x1294 ∧ d.ProductID = 0x1320)) ∨
      (∀ n ∈ (UpdatePhysicalDeviceList env World.init).PhysicalDeviceList,
        ¬ (n.HidDeviceInfo.VendorID = 0x1294 ∧ n.HidDeviceInfo.ProductID = 0x1320)) ∨
      (∃ k node,
        FindWebMailWindowNode (UpdatePhysicalDeviceList env World.init).PhysicalDeviceList =
          some (k, node) ∧
        env.openHandle node.HidDeviceInfo.DevicePath = none)) :
    writesIssued (main env argv.length argv World.init).2.calls = [] ∧
      (main env argv.length argv World.init).1 = 1 ∧
      ((FindWebMailWindowNode (UpdatePhysicalDeviceList env World.init).PhysicalDeviceList =
            none ∧
          "Cannot find Webmail Window HID Device\n" ∈
            (main env argv.length argv World.init).2.stderr) ∨
        (FindWebMailWindowNode (UpdatePhysicalDeviceList env World.init).PhysicalDeviceList ≠
            none ∧
          "Cannot open Webmail Window HID Device\n" ∈
            (main env argv.length argv World.init).2.stderr)) := by
  obtain ⟨_, _, hnow⟩ := update_balance env
  have hcase : (∀ n ∈ (UpdatePhysicalDeviceList env World.init).PhysicalDeviceList,
        ¬ (n.HidDeviceInfo.VendorID = 0x1294 ∧ n.HidDeviceInfo.ProductID = 0x1320)) ∨
      (∃ k node,
        FindWebMailWindowNode (UpdatePhysicalDeviceList env World.init).PhysicalDeviceList =
          some (k, node) ∧
        env.openHandle node.HidDeviceInfo.DevicePath = none) := by
    rcases h with h | h | h | h | h | h
    · exact Or.inl (registry_without_target env _ (Or.inl h))
    · exact Or.inl (registry_without_target env _ (Or.inr (Or.inl h)))
    · exact Or.inl (registry_without_target env _ (Or.inr (Or.inr (Or.inl h))))
    · exact Or.inl (registry_without_target env _ (Or.inr (Or.inr (Or.inr h))))
    · exact Or.inl h
    · exact Or.inr h
  rcases hcase with hnone | ⟨k, node, hfind, hopen⟩
  · have hfind := (find_none_iff _).mpr hnone
    rw [main_not_found env _ argv _ hmask hfind]
    refine ⟨?_, rfl, Or.inl ⟨hfind, ?_⟩⟩
    · simp only [writesIssued_append, writesIssued_map_close, List.append_nil, hnow]
    · simp
  · rw [main_open_failed env _ argv _ k node hmask hfind hopen]
    refine ⟨?_, rfl, Or.inr ⟨?_, ?_⟩⟩
    · simp only [writesIssued_append, writesIssued_map_close, List.append_nil, hnow,
        writesIssued]
    · rw [hfind]
      simp
    · simp

/-- Witness of C6: zero devices enumerated and `-c r`. -/
theorem no_target_or_open_failure_returns_one_witness :
    writesIssued (main envNoDevice 3
        ["webmailwindow.exe".toList, "-c".toList, "r".toList] World.init).2.calls = [] ∧
      (main envNoDevice 3
        ["webmailwindow.exe".toList, "-c".toList, "r".toList] World.init).1 = 1 :=
  have h := no_target_or_open_failure_returns_one envNoDevice
    ["webmailwindow.exe".toList, "-c".toList, "r".toList] (by decide) (Or.inr (Or.inl rfl))
  ⟨h.1, h.2.1⟩

/-- C7, as stated, fails: `-color r` holds no `-c` argument, yet the parse yields the
mask of `r` and `main` goes on to the enumeration instead of printing the usage line. -/
theorem no_dash_c_argument_counterexample :
    "-c".toList ∉ ["webmailwindow.exe".toList, "-color".toList, "r".toList] ∧
      ParseOptionsForLedPattern 3
        ["webmailwindow.exe".toList, "-color".toList, "r".toList] = 2 ∧
      (main envNoDevice 3 ["webmailwindow.exe".toList, "-color".toList, "r".toList]
        World.init).1 = 1 ∧
      (main envNoDevice 3 ["webmailwindow.exe".toList, "-color".toList, "r".toList]
        World.init).2.calls = [TransportCall.enumerate] ∧
      (main envNoDevice 3 ["webmailwindow.exe".toList, "-color".toList, "r".toList]
        World.init).2.stdout = [] := by
  decide

/-- C7, amended: for every argument list in which no argument that begins with `-c` has
a following token (no argument begins with `-c`, or the only one that does is the last),
`ParseOptionsForLedPattern` returns -1 and `main` prints the usage line and returns 0
with no transport call and the list untouched. -/
theorem usage_when_no_flag_has_a_token (env : Env) (argv : List CString) (w : World)
    (h : ∀ i, i + 1 < argv.length → ¬ "-c".toList <+: argv.getD i []) :
    ParseOptionsForLedPattern argv.length argv = -1 ∧
      main env argv.length argv w = (0, { w with stdout := w.stdout ++ [usageLine] }) ∧
      (main env argv.length argv w).2.calls = w.calls ∧
      (main env argv.length argv w).2.PhysicalDeviceList = w.PhysicalDeviceList := by
  have hparse : ParseOptionsForLedPattern argv.length argv = -1 := by
    unfold ParseOptionsForLedPattern
    apply parse_fold_none
    intro j _ hj
    exact h j hj.2.1 hj.1
  have hmain : main env argv.length argv w =
      (0, { w with stdout := w.stdout ++ [usageLine] }) := by
    unfold main
    simp only [hparse, if_true]
  refine ⟨hparse, hmain, ?_, ?_⟩
  · rw [hmain]
  · rw [hmain]

/-- Witness of the amended C7: `-c` with no following argument. -/
theorem usage_when_no_flag_has_a_token_witness :
    ParseOptionsForLedPattern 2 ["webmailwindow.exe".toList, "-c".toList] = -1 ∧
      main envOneTarget 2 ["webmailwindow.exe".toList, "-c".toList] World.init =
        (0, { World.init with stdout := World.init.stdout ++ [usageLine] }) :=
  have h := usage_when_no_flag_has_a_token envOneTarget
    ["webmailwindow.exe".toList, "-c".toList] World.init
    (by
      intro i hi
      have hi0 : i = 0 := by
        simp only [List.length_cons, List.length_nil] at hi
        omega
      subst hi0
      decide)
  ⟨h.1, h.2.1⟩

/-! ## Claims on the command line -/

/-- C8: for a pattern token that holds at least one of `r`, `g`, `b`, the mask parsed
from `-c <pattern>` is the OR of one bit per letter present (`r` 2, `g` 1, `b` 4), so it
is the same for any two tokens in which the same of the three letters occur, in
particular for a permutation of the token and for a token with the same characters
repeated; `rgb`, `bgr` and `grb` give one mask, `rrr` gives the mask of `r`, the other
characters of `green` are ignored, and `none` gives 0. -/
theorem mask_depends_only_on_letters_present (prog p : CString)
    (hp : 'r' ∈ p ∨ 'g' ∈ p ∨ 'b' ∈ p) :
    ParseOptionsForLedPattern 3 [prog, "-c".toList, p] =
        (((if 'r' ∈ p then 2 else 0) ||| (if 'g' ∈ p then 1 else 0) |||
          (if 'b' ∈ p then 4 else 0) : Nat) : Int) ∧
      (∀ q : CString, ('r' ∈ q ↔ 'r' ∈ p) → ('g' ∈ q ↔ 'g' ∈ p) → ('b' ∈ q ↔ 'b' ∈ p) →
        ParseOptionsForLedPattern 3 [prog, "-c".toList, q] =
          ParseOptionsForLedPattern 3 [prog, "-c".toList, p]) ∧
      (∀ q : CString, q.Perm p →
        ParseOptionsForLedPattern 3 [prog, "-c".toList, q] =
          ParseOptionsForLedPattern 3 [prog, "-c".toList, p]) ∧
      (∀ q : CString, (∀ c, c ∈ q ↔ c ∈ p) →
        ParseOptionsForLedPattern 3 [prog, "-c".toList, q] =
          ParseOptionsForLedPattern 3 [prog, "-c".toList, p]) ∧
      ParseOptionsForLedPattern 3 [prog, "-c".toList, "rgb".toList] = 7 ∧
      ParseOptionsForLedPattern 3 [prog, "-c".toList, "bgr".toList] = 7 ∧
      ParseOptionsForLedPattern 3 [prog, "-c".toList, "grb".toList] = 7 ∧
      ParseOptionsForLedPattern 3 [prog, "-c".toList, "rrr".toList] =
        ParseOptionsForLedPattern 3 [prog, "-c".toList, "r".toList] ∧
      ParseOptionsForLedPattern 3 [prog, "-c".toList, "green".toList] =
        ParseOptionsForLedPattern 3 [prog, "-c".toList, "rg".toList] ∧
      ParseOptionsForLedPattern 3 [prog, "-c".toList, "none".toList] = 0 := by
  have hflag : "-c".toList <+: "-c".toList := List.prefix_refl _
  have hval : ∀ q : CString, ('r' ∈ q ∨ 'g' ∈ q ∨ 'b' ∈ q) →
      ParseOptionsForLedPattern 3 [prog, "-c".toList, q] = (letterMask q : Int) := by
    intro q hq
    apply parse_single prog "-c".toList q hflag
    rcases hq with h | h | h
    · exact Or.inl h
    · exact Or.inr (Or.inl h)
    · exact Or.inr (Or.inr (Or.inl h))
  have hsame : ∀ q : CString, ('r' ∈ q ↔ 'r' ∈ p) → ('g' ∈ q ↔ 'g' ∈ p) →
      ('b' ∈ q ↔ 'b' ∈ p) →
      ParseOptionsForLedPattern 3 [prog, "-c".toList, q] =
        ParseOptionsForLedPattern 3 [prog, "-c".toList, p] := by
    intro q hr hg hb
    have hq : 'r' ∈ q ∨ 'g' ∈ q ∨ 'b' ∈ q := by
      rcases hp with h | h | h
      · exact Or.inl (hr.mpr h)
      · exact Or.inr (Or.inl (hg.mpr h))
      · exact Or.inr (Or.inr (hb.mpr h))
    rw [hval q hq, hval p hp]
    unfold letterMask
    simp only [hr, hg, hb]
  refine ⟨hval p hp, hsame, ?_, ?_, ?_, ?_, ?_, ?_, ?_, ?_⟩
  · intro q hperm
    exact hsame q hperm.mem_iff hperm.mem_iff hperm.mem_iff
  · intro q hmem
    exact hsame q (hmem _) (hmem _) (hmem _)
  · rw [hval _ (by decide)]; decide
  · rw [hval _ (by decide)]; decide
  · rw [hval _ (by decide)]; decide
  · rw [hval _ (by decide), hval _ (by decide)]; decide
  · rw [hval _ (by decide), hval _ (by decide)]; decide
  · rw [parse_single prog "-c".toList "none".toList hflag (by decide)]; decide

/-- Witness of C8 at the token `bgr`. -/
theorem mask_depends_only_on_letters_present_witness :
    ('r' ∈ "bgr".toList ∨ 'g' ∈ "bgr".toList ∨ 'b' ∈ "bgr".toList) ∧
      ParseOptionsForLedPattern 3 ["webmailwindow.exe".toList, "-c".toList, "bgr".toList] =
        (((if 'r' ∈ "bgr".toList then 2 else 0) ||| (if 'g' ∈ "bgr".toList then 1 else 0) |||
          (if 'b' ∈ "bgr".toList then 4 else 0) : Nat) : Int) :=
  ⟨by decide,
    (mask_depends_only_on_letters_present "webmailwindow.exe".toList "bgr".toList
      (by decide)).1⟩

/-- C10, as stated, fails: `nonesuch` holds none of `r`, `g`, `b` and is not the literal
`none`, yet it parses to mask 0. -/
theorem none_literal_counterexample :
    'r' ∉ "nonesuch".toList ∧ 'g' ∉ "nonesuch".toList ∧ 'b' ∉ "nonesuch".toList ∧
      "nonesuch".toList ≠ "none".toList ∧
      ParseOptionsForLedPattern 3
        ["webmailwindow.exe".toList, "-c".toList, "nonesuch".toList] = 0 := by
  decide

/-- C10, amended: for a pattern token that holds none of `r`, `g`, `b`, parsing
`-c <pattern>` yields mask 0 if and only if the token begins with the four characters
`none`; every other such token leaves the result unspecified (-1). -/
theorem none_recognised_by_its_first_four_characters (prog p : CString)
    (hp : 'r' ∉ p ∧ 'g' ∉ p ∧ 'b' ∉ p) :
    (ParseOptionsForLedPattern 3 [prog, "-c".toList, p] = 0 ↔ "none".toList <+: p) ∧
      (¬ "none".toList <+: p → ParseOptionsForLedPattern 3 [prog, "-c".toList, p] = -1) := by
  have hmask : letterMask p = 0 := by
    have := (letterMask_pos_iff p).not.mpr (by
      intro h
      rcases h with h | h | h
      · exact hp.1 h
      · exact hp.2.1 h
      · exact hp.2.2 h)
    omega
  have hno : ¬ "none".toList <+: p → ParseOptionsForLedPattern 3 [prog, "-c".toList, p] = -1 := by
    intro hn
    apply parse_single_unrecognised
    intro h
    rcases h with h | h | h | h
    · exact hp.1 h
    · exact hp.2.1 h
    · exact hp.2.2 h
    · exact hn h
  refine ⟨⟨?_, ?_⟩, hno⟩
  · intro h0
    by_contra hn
    rw [hno hn] at h0
    exact absurd h0 (by decide)
  · intro hn
    rw [parse_single prog "-c".toList p (List.prefix_refl _) (Or.inr (Or.inr (Or.inr hn))), hmask]
    rfl

/-- Witness of the amended C10 at the token `nonesuch`. -/
theorem none_recognised_by_its_first_four_characters_witness :
    ('r' ∉ "nonesuch".toList ∧ 'g' ∉ "nonesuch".toList ∧ 'b' ∉ "nonesuch".toList) ∧
      (ParseOptionsForLedPattern 3
          ["webmailwindow.exe".toList, "-c".toList, "nonesuch".toList] = 0 ↔
        "none".toList <+: "nonesuch".toList) :=
  ⟨by decide,
    (none_recognised_by_its_first_four_characters "webmailwindow.exe".toList
      "nonesuch".toList (by decide)).1⟩

end WebMailWindow
